import Mathlib

set_option maxHeartbeats 1000000

/-! Shallow embedding of the ingestion reconciliation core of the
serverless web crawler repository: the repository layer over the
relational store (tables questions, tags, question_tags,
crawler_executions) and the pipeline orchestration code of
lambda_function.py.  Every database effect is modelled as pure state
passing over a World value; a fault oracle decides, per SQL statement,
whether the underlying MySQL round trip raises, and the MySQL unique
constraints on questions.question_id and tags.name are part of the
statement semantics.  Python exceptions are modelled with Except. -/

/-- One SQL statement executed by the repositories, carrying the
parameters that the fault oracle may inspect.  Each constructor
corresponds to one query string in the source. -/
inductive Stmt where
  | selectTagByName (name : String)
  | insertTag (name : String)
  | selectQuestionByQid (qid : String)
  | insertQuestion (qid : String)
  | updateQuestion (rowId : Nat)
  | selectQuestionTagIds (qid : Nat)
  | deleteQuestionTags (qid : Nat) (tagIds : List Nat)
  | insertQuestionTags (qid : Nat) (pairs : List (Nat × Nat))
  | insertExecution (status : String)
  deriving DecidableEq

/-- Row of the tags table. -/
structure TagRow where
  id : Nat
  name : String
  deriving DecidableEq

/-- Row of the questions table. -/
structure QuestionRow where
  id : Nat
  question_id : String
  title : String
  description : Option String
  language : String
  url : String
  view_count : Int
  vote_count : Int
  answers_count : Int
  has_accepted_answer : Bool
  posted_at : Option String
  deriving DecidableEq

/-- Row of the crawler_executions table. -/
structure ExecutionRow where
  id : Nat
  start_time : Nat
  end_time : Nat
  questions_processed : Nat
  english_questions : Nat
  chinese_questions : Nat
  status : String
  error_message : Option String
  duration_ms : Int
  output_file : String
  deriving DecidableEq

/-- The relational store.  The next-id counters model AUTO_INCREMENT
primary keys. -/
structure DB where
  questions : List QuestionRow := []
  nextQuestionId : Nat := 1
  tags : List TagRow := []
  nextTagId : Nat := 1
  questionTags : List (Nat × Nat) := []
  executions : List ExecutionRow := []
  nextExecutionId : Nat := 1
  deriving DecidableEq

/-- World state threaded through every operation: the store plus the
trace of attempted SQL statements, in execution order. -/
structure World where
  db : DB
  trace : List Stmt := []
  deriving DecidableEq

/-- Fault oracle: true means the MySQL round trip for this statement
raises an infrastructure error. -/
abbrev Oracle := Stmt → Bool

/-- Python-level exceptions that the modelled code can raise. -/
inductive Err where
  | dbError
  | duplicateKey
  | keyError
  deriving DecidableEq

instance {ε α : Type} [DecidableEq ε] [DecidableEq α] :
    DecidableEq (Except ε α) := fun x y =>
  match x, y with
  | .ok a, .ok b =>
    decidable_of_iff (a = b) (by constructor <;> (intro h; simp_all))
  | .error a, .error b =>
    decidable_of_iff (a = b) (by constructor <;> (intro h; simp_all))
  | .ok _, .error _ => isFalse (fun h => Except.noConfusion h)
  | .error _, .ok _ => isFalse (fun h => Except.noConfusion h)

/-- Message text attached to an exception, as seen by str(e). -/
def errString : Err → String
  | .dbError => "database error"
  | .duplicateKey => "duplicate key"
  | .keyError => "key error"

/-- Incoming record for one question: a Python dict whose keys may be
absent, so every field is an Option whose none means the key is
missing. -/
structure QuestionData where
  question_id : Option String := none
  title : Option String := none
  description : Option String := none
  language : Option String := none
  url : Option String := none
  view_count : Option Int := none
  vote_count : Option Int := none
  answers_count : Option Int := none
  has_accepted_answer : Option Bool := none
  posted_at : Option String := none
  tags : Option (List String) := none
  deriving DecidableEq

/-- The updatable columns of the questions table, i.e. the keys of
field_map in QuestionsRepository.update.  The external question_id is
deliberately not updatable. -/
inductive Col where
  | title
  | description
  | language
  | url
  | view_count
  | vote_count
  | answers_count
  | has_accepted_answer
  | posted_at
  deriving DecidableEq

/-- An SQL value bound into an UPDATE statement. -/
inductive Value where
  | s (v : String)
  | os (v : Option String)
  | i (v : Int)
  | b (v : Bool)
  deriving DecidableEq

/-- Read one updatable column of a row. -/
def getCol (r : QuestionRow) : Col → Value
  | .title => .s r.title
  | .description => .os r.description
  | .language => .s r.language
  | .url => .s r.url
  | .view_count => .i r.view_count
  | .vote_count => .i r.vote_count
  | .answers_count => .i r.answers_count
  | .has_accepted_answer => .b r.has_accepted_answer
  | .posted_at => .os r.posted_at

/-- Semantics of one assignment of an UPDATE SET clause.  A
type-mismatched assignment cannot be produced by updFields and leaves
the row unchanged. -/
def setCol (r : QuestionRow) (cv : Col × Value) : QuestionRow :=
  match cv with
  | (.title, .s v) => { r with title := v }
  | (.description, .os v) => { r with description := v }
  | (.language, .s v) => { r with language := v }
  | (.url, .s v) => { r with url := v }
  | (.view_count, .i v) => { r with view_count := v }
  | (.vote_count, .i v) => { r with vote_count := v }
  | (.answers_count, .i v) => { r with answers_count := v }
  | (.has_accepted_answer, .b v) => { r with has_accepted_answer := v }
  | (.posted_at, .os v) => { r with posted_at := v }
  | _ => r

/-- Value for a column when the corresponding key is present in the
incoming record, none when the key is absent.  A present description
or posted_at key carries a non-null value in the source records. -/
def colValue (d : QuestionData) : Col → Option Value
  | .title => d.title.map Value.s
  | .description => d.description.map (fun v => Value.os (some v))
  | .language => d.language.map Value.s
  | .url => d.url.map Value.s
  | .view_count => d.view_count.map Value.i
  | .vote_count => d.vote_count.map Value.i
  | .answers_count => d.answers_count.map Value.i
  | .has_accepted_answer => d.has_accepted_answer.map Value.b
  | .posted_at => d.posted_at.map (fun v => Value.os (some v))

/-- Whether the incoming record carries the key for a column. -/
def colPresent (d : QuestionData) (c : Col) : Bool :=
  (colValue d c).isSome

/-- Iteration order of field_map in QuestionsRepository.update
(Python dict insertion order). -/
def colOrder : List Col :=
  [.title, .description, .language, .url, .view_count, .vote_count,
   .answers_count, .has_accepted_answer, .posted_at]

/-- The SET clause built by QuestionsRepository.update: one assignment
per field_map key present in the incoming record, in field_map
order. -/
def updFields (d : QuestionData) : List (Col × Value) :=
  colOrder.filterMap (fun c => (colValue d c).map (fun v => (c, v)))

/-- Apply a SET clause to a row, left to right. -/
def applyFields (r : QuestionRow) (fs : List (Col × Value)) : QuestionRow :=
  fs.foldl setCol r

namespace Db

/-- Record the attempted statement in the trace. -/
def logStmt (w : World) (s : Stmt) : World :=
  { w with trace := w.trace ++ [s] }

/-- SELECT * FROM tags WHERE name = %s, first row or none. -/
def selectTagByName (o : Oracle) (w : World) (name : String) :
    Except Err (Option TagRow) × World :=
  let w' := logStmt w (.selectTagByName name)
  if o (.selectTagByName name) then (.error .dbError, w')
  else (.ok (w.db.tags.find? (fun t => t.name == name)), w')

/-- INSERT INTO tags (name) VALUES (%s); raises on the unique
constraint on name, returns the new AUTO_INCREMENT id. -/
def insertTag (o : Oracle) (w : World) (name : String) :
    Except Err Nat × World :=
  let w' := logStmt w (.insertTag name)
  if o (.insertTag name) then (.error .dbError, w')
  else if w.db.tags.any (fun t => t.name == name) then (.error .duplicateKey, w')
  else (.ok w.db.nextTagId,
    { w' with db := { w.db with
        tags := w.db.tags ++ [{ id := w.db.nextTagId, name := name }],
        nextTagId := w.db.nextTagId + 1 } })

/-- SELECT * FROM questions WHERE question_id = %s, first row or none. -/
def selectQuestionByQid (o : Oracle) (w : World) (qid : String) :
    Except Err (Option QuestionRow) × World :=
  let w' := logStmt w (.selectQuestionByQid qid)
  if o (.selectQuestionByQid qid) then (.error .dbError, w')
  else (.ok (w.db.questions.find? (fun r => r.question_id == qid)), w')

/-- INSERT INTO questions (...); raises on the unique constraint on
question_id, returns the new AUTO_INCREMENT id.  The id field of the
argument row is ignored and replaced by the fresh id. -/
def insertQuestion (o : Oracle) (w : World) (r : QuestionRow) :
    Except Err Nat × World :=
  let w' := logStmt w (.insertQuestion r.question_id)
  if o (.insertQuestion r.question_id) then (.error .dbError, w')
  else if w.db.questions.any (fun q => q.question_id == r.question_id) then
    (.error .duplicateKey, w')
  else (.ok w.db.nextQuestionId,
    { w' with db := { w.db with
        questions := w.db.questions ++ [{ r with id := w.db.nextQuestionId }],
        nextQuestionId := w.db.nextQuestionId + 1 } })

/-- UPDATE questions SET ... WHERE id = %s. -/
def updateQuestion (o : Oracle) (w : World) (rowId : Nat)
    (fs : List (Col × Value)) : Except Err Unit × World :=
  let w' := logStmt w (.updateQuestion rowId)
  if o (.updateQuestion rowId) then (.error .dbError, w')
  else (.ok (),
    { w' with db := { w.db with
        questions := w.db.questions.map
          (fun r => if r.id == rowId then applyFields r fs else r) } })

/-- SELECT tag_id FROM question_tags WHERE question_id = %s. -/
def selectQuestionTagIds (o : Oracle) (w : World) (qid : Nat) :
    Except Err (List Nat) × World :=
  let w' := logStmt w (.selectQuestionTagIds qid)
  if o (.selectQuestionTagIds qid) then (.error .dbError, w')
  else (.ok ((w.db.questionTags.filter (fun p => p.1 == qid)).map (fun p => p.2)), w')

/-- DELETE FROM question_tags WHERE question_id = %s AND tag_id IN (...). -/
def deleteQuestionTags (o : Oracle) (w : World) (qid : Nat)
    (tagIds : List Nat) : Except Err Unit × World :=
  let w' := logStmt w (.deleteQuestionTags qid tagIds)
  if o (.deleteQuestionTags qid tagIds) then (.error .dbError, w')
  else (.ok (),
    { w' with db := { w.db with
        questionTags := w.db.questionTags.filter
          (fun p => !(p.1 == qid && tagIds.contains p.2)) } })

/-- Sequential semantics of executemany over INSERT IGNORE INTO
question_tags: each pair is inserted unless the (question_id, tag_id)
unique key already holds. -/
def insertIgnorePairs (qts : List (Nat × Nat)) (pairs : List (Nat × Nat)) :
    List (Nat × Nat) :=
  pairs.foldl (fun acc p => if acc.contains p then acc else acc ++ [p]) qts

/-- executemany of INSERT IGNORE INTO question_tags (question_id, tag_id). -/
def insertQuestionTags (o : Oracle) (w : World) (qid : Nat)
    (pairs : List (Nat × Nat)) : Except Err Unit × World :=
  let w' := logStmt w (.insertQuestionTags qid pairs)
  if o (.insertQuestionTags qid pairs) then (.error .dbError, w')
  else (.ok (),
    { w' with db := { w.db with
        questionTags := insertIgnorePairs w.db.questionTags pairs } })

end Db

namespace TagsRepository

/-- TagsRepository.get_by_name: SELECT by exact name, first row or
none. -/
def get_by_name (o : Oracle) (w : World) (name : String) :
    Except Err (Option TagRow) × World :=
  Db.selectTagByName o w name

/-- TagsRepository.create: insert the name from the tag_data dict and
return the new id. -/
def create (o : Oracle) (w : World) (name : String) :
    Except Err Nat × World :=
  Db.insertTag o w name

/-- A concurrent writer committing a tag with the given name between
the lookup and the insert of create_or_get (the race of spec section
4.2); none means no interference.  The single-threaded pipeline itself
always runs with none. -/
def applyRace (race : Option String) (w : World) : World :=
  match race with
  | none => w
  | some n =>
    if w.db.tags.any (fun t => t.name == n) then w
    else { w with db := { w.db with
        tags := w.db.tags ++ [{ id := w.db.nextTagId, name := n }],
        nextTagId := w.db.nextTagId + 1 } }

/-- TagsRepository.create_or_get: look up by exact name; return the
id if found, otherwise insert.  Any exception from the insert
propagates to the caller as written in the source. -/
def create_or_get (o : Oracle) (race : Option String) (w : World)
    (name : String) : Except Err Nat × World :=
  match get_by_name o w name with
  | (.error e, w₁) => (.error e, w₁)
  | (.ok (some t), w₁) => (.ok t.id, w₁)
  | (.ok none, w₁) => create o (applyRace race w₁) name

/-- Modelled from the spec: the variant of create_or_get prescribed by
spec section 4.2, which on a uniqueness violation from a concurrent
creator retries the lookup once before surfacing the error.  The
source contains no such retry; this definition exists only to compare
the spec text with the code. -/
def create_or_get_retrySpec (o : Oracle) (race : Option String) (w : World)
    (name : String) : Except Err Nat × World :=
  match get_by_name o w name with
  | (.error e, w₁) => (.error e, w₁)
  | (.ok (some t), w₁) => (.ok t.id, w₁)
  | (.ok none, w₁) =>
    match create o (applyRace race w₁) name with
    | (.error .duplicateKey, w₂) =>
      match get_by_name o w₂ name with
      | (.ok (some t), w₃) => (.ok t.id, w₃)
      | (.ok none, w₃) => (.error .duplicateKey, w₃)
      | (.error e, w₃) => (.error e, w₃)
    | other => other

end TagsRepository

namespace QuestionsRepository

/-- Trailing path segment of a URL, as url.split on slash, last
element. -/
def lastSegment (url : String) : String :=
  (url.splitOn "/").getLastD ""

/-- The in-place derivation at the top of create_or_update: if the
record has no question_id key but has a url key, set question_id to
the trailing path segment of the url. -/
def derivedData (d : QuestionData) : QuestionData :=
  if d.question_id.isNone && d.url.isSome then
    { d with question_id := some (lastSegment (d.url.getD "")) }
  else d

/-- QuestionsRepository.create: INSERT with all provided fields,
missing optional fields defaulting to zero, False or NULL.  Accessing
a missing required key (question_id, title, language, url) raises
KeyError. -/
def create (o : Oracle) (w : World) (d : QuestionData) :
    Except Err Nat × World :=
  match d.question_id, d.title, d.language, d.url with
  | some qid, some title, some language, some url =>
    Db.insertQuestion o w
      { id := 0, question_id := qid, title := title,
        description := d.description, language := language, url := url,
        view_count := d.view_count.getD 0,
        vote_count := d.vote_count.getD 0,
        answers_count := d.answers_count.getD 0,
        has_accepted_answer := d.has_accepted_answer.getD false,
        posted_at := d.posted_at }
  | _, _, _, _ => (.error .keyError, w)

/-- QuestionsRepository.update: build the SET clause from the
field_map keys present in the record; if no updatable field is
present return False without touching the database; otherwise execute
the UPDATE, catching any exception and returning False instead of
raising. -/
def update (o : Oracle) (w : World) (rowId : Nat) (d : QuestionData) :
    Bool × World :=
  let fs := updFields d
  if fs.isEmpty then (false, w)
  else
    match Db.updateQuestion o w rowId fs with
    | (.error _, w₁) => (false, w₁)
    | (.ok _, w₁) => (true, w₁)

/-- QuestionsRepository.get_by_question_id. -/
def get_by_question_id (o : Oracle) (w : World) (qid : String) :
    Except Err (Option QuestionRow) × World :=
  Db.selectQuestionByQid o w qid

/-- QuestionsRepository.create_or_update: derive the external id,
look the question up, update and return the existing id if found
(ignoring the Boolean result of update), otherwise insert. -/
def create_or_update (o : Oracle) (w : World) (d0 : QuestionData) :
    Except Err Nat × World :=
  let d := derivedData d0
  match d.question_id with
  | none => (.error .keyError, w)
  | some qid =>
    match get_by_question_id o w qid with
    | (.error e, w₁) => (.error e, w₁)
    | (.ok (some row), w₁) => (.ok row.id, (update o w₁ row.id d).2)
    | (.ok none, w₁) => create o w₁ d

end QuestionsRepository

namespace QuestionTagsRepository

/-- QuestionTagsRepository.add_tags_to_question: bulk INSERT IGNORE of
(question_id, tag_id) pairs; catches any exception and returns
False. -/
def add_tags_to_question (o : Oracle) (w : World) (question_id : Nat)
    (tag_ids : List Nat) : Bool × World :=
  if tag_ids.isEmpty then (true, w)
  else
    match Db.insertQuestionTags o w question_id
        (tag_ids.map (fun t => (question_id, t))) with
    | (.error _, w₁) => (false, w₁)
    | (.ok _, w₁) => (true, w₁)

/-- QuestionTagsRepository.remove_tags_from_question: bulk DELETE of
the listed tag ids for the question; catches any exception and
returns False. -/
def remove_tags_from_question (o : Oracle) (w : World) (question_id : Nat)
    (tag_ids : List Nat) : Bool × World :=
  if tag_ids.isEmpty then (true, w)
  else
    match Db.deleteQuestionTags o w question_id tag_ids with
    | (.error _, w₁) => (false, w₁)
    | (.ok _, w₁) => (true, w₁)

/-- QuestionTagsRepository.update_question_tags: fetch the current tag
ids, compute the two set differences, remove then add, returning True;
an exception from the initial SELECT is caught and returns False, and
the Boolean results of the remove and add helpers are ignored as in
the source. -/
def update_question_tags (o : Oracle) (w : World) (question_id : Nat)
    (tag_ids : List Nat) : Bool × World :=
  match Db.selectQuestionTagIds o w question_id with
  | (.error _, w₁) => (false, w₁)
  | (.ok current, w₁) =>
    let tags_to_add := tag_ids.filter (fun t => !(current.contains t))
    let tags_to_remove := current.filter (fun t => !(tag_ids.contains t))
    let w₂ := if tags_to_remove.isEmpty then w₁
      else (remove_tags_from_question o w₁ question_id tags_to_remove).2
    let w₃ := if tags_to_add.isEmpty then w₂
      else (add_tags_to_question o w₂ question_id tags_to_add).2
    (true, w₃)

end QuestionTagsRepository

/-- Summary dict handed to CrawlerExecutionsRepository.create. -/
structure ExecutionData where
  start_time : Nat
  end_time : Nat
  questions_processed : Nat
  english_questions : Nat
  chinese_questions : Nat
  status : String
  error_message : Option String := none
  duration_ms : Int
  output_file : String
  deriving DecidableEq

namespace CrawlerExecutionsRepository

/-- CrawlerExecutionsRepository.create: INSERT one audit row and
return its id; any database error propagates to the caller. -/
def create (o : Oracle) (w : World) (e : ExecutionData) :
    Except Err Nat × World :=
  let w' := Db.logStmt w (.insertExecution e.status)
  let row : ExecutionRow :=
    { id := w.db.nextExecutionId,
      start_time := e.start_time, end_time := e.end_time,
      questions_processed := e.questions_processed,
      english_questions := e.english_questions,
      chinese_questions := e.chinese_questions,
      status := e.status, error_message := e.error_message,
      duration_ms := e.duration_ms, output_file := e.output_file }
  if o (.insertExecution e.status) then (.error .dbError, w')
  else (.ok w.db.nextExecutionId,
    { w' with db := { w.db with
        executions := w.db.executions ++ [row],
        nextExecutionId := w.db.nextExecutionId + 1 } })

end CrawlerExecutionsRepository

/-- The tag resolution loop of process_question: resolve each name
through create_or_get, keeping the truthy ids; an exception from
create_or_get propagates (it is caught only by the try of
process_question). -/
def resolveTagIds (o : Oracle) : World → List String → Except Err (List Nat) × World
  | w, [] => (.ok [], w)
  | w, n :: ns =>
    match TagsRepository.create_or_get o none w n with
    | (.error e, w₁) => (.error e, w₁)
    | (.ok tid, w₁) =>
      match resolveTagIds o w₁ ns with
      | (.error e, w₂) => (.error e, w₂)
      | (.ok rest, w₂) => (.ok (if tid ≠ 0 then tid :: rest else rest), w₂)

/-- lambda_function.process_question: upsert the question, then, when
the record has a non-empty tag list, resolve the names and reconcile
the association set; any exception inside the body is caught at record
scope and turned into (False, None). -/
def process_question (o : Oracle) (w : World) (d : QuestionData) :
    (Bool × Option Nat) × World :=
  match QuestionsRepository.create_or_update o w d with
  | (.error _, w₁) => ((false, none), w₁)
  | (.ok question_id, w₁) =>
    if question_id = 0 then ((false, none), w₁)
    else
      match d.tags with
      | none => ((true, some question_id), w₁)
      | some tagNames =>
        if tagNames.isEmpty then ((true, some question_id), w₁)
        else
          match resolveTagIds o w₁ tagNames with
          | (.error _, w₂) => ((false, none), w₂)
          | (.ok tag_ids, w₂) =>
            if tag_ids.isEmpty then ((true, some question_id), w₂)
            else ((true, some question_id),
              (QuestionTagsRepository.update_question_tags o w₂ question_id
                tag_ids.dedup).2)

/-- The per-record loop of lambda_handler: run process_question on
each record in order and count the successes. -/
def processBatch (o : Oracle) : World → List QuestionData → Nat × World
  | w, [] => (0, w)
  | w, q :: qs =>
    let r := process_question o w q
    let rest := processBatch o r.2 qs
    ((if r.1.1 then 1 else 0) + rest.1, rest.2)

/-- The value returned by lambda_handler: a 200 body with the run
summary, or a 500 body with the error message. -/
inductive LambdaResult where
  | ok (total_questions processed_questions english_questions
      chinese_questions : Nat) (output_file : String) (duration_ms : Int)
  | err (message : String)
  deriving DecidableEq

/-- HTTP status code of a handler result. -/
def LambdaResult.statusCode : LambdaResult → Nat
  | .ok _ _ _ _ _ _ => 200
  | .err _ => 500

/-- lambda_function.lambda_handler.  The extractor results (the two
fetched record lists) and the archiver outcome of save_to_s3 are
external collaborators and enter as parameters; fetch_questions,
process_question and save_to_s3 all catch their own exceptions, so
within the try body the only raise point is the audit insert.  Wall
clock readings are modelled by the two timestamps.  The success-path
audit insert is unprotected as in the source: its exception falls
through to the outer except, which builds a zeroed error summary,
attempts a second (protected) audit insert and returns a 500 body. -/
def lambda_handler (o : Oracle) (w : World)
    (questions_en questions_zh : List QuestionData)
    (s3_success : Bool) (output_file : String)
    (startT endT : Nat) : LambdaResult × World :=
  let all_questions := questions_en ++ questions_zh
  let pr := processBatch o w all_questions
  let execution_data : ExecutionData :=
    { start_time := startT, end_time := endT,
      questions_processed := pr.1,
      english_questions := questions_en.length,
      chinese_questions := questions_zh.length,
      status := if s3_success then "success" else "error",
      error_message := none,
      duration_ms := (endT : Int) - (startT : Int),
      output_file := output_file }
  match CrawlerExecutionsRepository.create o pr.2 execution_data with
  | (.ok _, w₂) =>
    (LambdaResult.ok all_questions.length pr.1 questions_en.length
      questions_zh.length output_file execution_data.duration_ms, w₂)
  | (.error e, w₂) =>
    let error_message := errString e
    let errData : ExecutionData :=
      { start_time := startT, end_time := endT,
        questions_processed := 0, english_questions := 0,
        chinese_questions := 0, status := "error",
        error_message := some error_message,
        duration_ms := (endT : Int) - (startT : Int),
        output_file := "" }
    (LambdaResult.err error_message,
      (CrawlerExecutionsRepository.create o w₂ errData).2)

/-- Connection lifecycle events of one BaseRepository operation.  An
event is recorded when the corresponding action completes. -/
inductive ConnStep where
  | acquired
  | executed
  | committed
  | rolledBack
  | released
  deriving DecidableEq, Fintype

/-- Outcome of attempting one cursor action: success, a
mysql.connector Error, or any other exception; the two except clauses
of the source treat the latter two identically apart from the log
text. -/
inductive ExecOutcome where
  | ok
  | dbError
  | otherError
  deriving DecidableEq, Fintype

/-- BaseRepository._execute_query: acquire, execute and fetch, no
commit; the except clauses re-raise, the finally clause closes the
connection when one was acquired.  Returns whether the call returned
normally, paired with the completed lifecycle events. -/
def execQuerySteps (acquireOk : Bool) (execOutcome : ExecOutcome) :
    Bool × List ConnStep :=
  if !acquireOk then (false, [])
  else
    match execOutcome with
    | .ok => (true, [.acquired, .executed, .released])
    | _ => (false, [.acquired, .released])

/-- BaseRepository._execute_write: acquire, execute, commit; on any
exception after acquisition roll back and re-raise; always close the
acquired connection in the finally clause. -/
def execWriteSteps (acquireOk : Bool) (execOutcome : ExecOutcome)
    (commitOk : Bool) : Bool × List ConnStep :=
  if !acquireOk then (false, [])
  else
    match execOutcome with
    | .ok =>
      if commitOk then (true, [.acquired, .executed, .committed, .released])
      else (false, [.acquired, .executed, .rolledBack, .released])
    | _ => (false, [.acquired, .rolledBack, .released])

/-- BaseRepository._execute_many: identical control flow to
_execute_write with executemany in place of execute. -/
def execManySteps (acquireOk : Bool) (execOutcome : ExecOutcome)
    (commitOk : Bool) : Bool × List ConnStep :=
  if !acquireOk then (false, [])
  else
    match execOutcome with
    | .ok =>
      if commitOk then (true, [.acquired, .executed, .committed, .released])
      else (false, [.acquired, .executed, .rolledBack, .released])
    | _ => (false, [.acquired, .rolledBack, .released])

/-! ### Concrete inputs used by the closed theorems and witnesses -/

/-- Oracle injecting no infrastructure faults. -/
def oracleNone : Oracle := fun _ => false

/-- Empty initial world. -/
def w0 : World := { db := {} }

/-- A full record as produced by the extractor. -/
def qd1 : QuestionData :=
  { question_id := some "q1", title := some "t1", description := some "d1",
    language := some "en", url := some "https://repost.aws/questions/q1",
    view_count := some 3, vote_count := some 1, answers_count := some 2,
    has_accepted_answer := some true, posted_at := some "2025-01-01",
    tags := some ["ec2", "s3"] }

/-- Minimal valid record with a chosen external id and no tags. -/
def recNoTags (q : String) : QuestionData :=
  { question_id := some q, title := some "t", language := some "en",
    url := some (String.append "https://repost.aws/questions/" q) }

/-- Oracle failing exactly the INSERT INTO questions for external id
q2: record 2 of the three-record batch raises during upsert. -/
def oracleFailQ2 : Oracle := fun s => decide (s = Stmt.insertQuestion "q2")

/-- Oracle failing exactly the success-status audit INSERT. -/
def oracleFailSuccessAudit : Oracle :=
  fun s => decide (s = Stmt.insertExecution "success")

/-- A fully populated stored row for the partial-update examples. -/
def rowFull : QuestionRow :=
  { id := 1, question_id := "q1", title := "t1", description := some "d1",
    language := "en", url := "https://repost.aws/questions/q1",
    view_count := 7, vote_count := 2, answers_count := 1,
    has_accepted_answer := true, posted_at := some "2025-01-01" }

/-- Record carrying only the external id and a new view count. -/
def dViewOnly : QuestionData :=
  { question_id := some "q1", view_count := some 5 }

/-- Oracle failing exactly the UPDATE of row 1. -/
def oracleFailUpdate : Oracle := fun s => decide (s = Stmt.updateQuestion 1)

/-- Helper: the final association table computed by
update_question_tags on a fault-free run, as a pure list
transformation. -/
def reconciledTags (qts : List (Nat × Nat)) (qid : Nat)
    (tagIds : List Nat) : List (Nat × Nat) :=
  let current := (qts.filter (fun p => p.1 == qid)).map (fun p => p.2)
  let tags_to_add := tagIds.filter (fun t => !(current.contains t))
  let tags_to_remove := current.filter (fun t => !(tagIds.contains t))
  let afterRemove := if tags_to_remove.isEmpty then qts
    else qts.filter (fun p => !(p.1 == qid && tags_to_remove.contains p.2))
  if tags_to_add.isEmpty then afterRemove
  else Db.insertIgnorePairs afterRemove (tags_to_add.map (fun t => (qid, t)))

/-! ### Theorems -/

/-- C8: every Connection Gateway operation releases the acquired
pooled connection on every exit path (the release is the last
lifecycle event, exactly once, whenever acquisition succeeded), the
write and bulk-write variants commit exactly on normal return and roll
back exactly when they re-raise after acquisition, and the read
variant never commits or rolls back. -/
theorem base_repository_connection_discipline :
    ∀ (aq commitOk : Bool) (oc : ExecOutcome),
      ((execQuerySteps aq oc).2.count ConnStep.released =
          if aq then 1 else 0) ∧
      ((execQuerySteps aq oc).2.getLast? =
          if aq then some ConnStep.released else none) ∧
      ConnStep.committed ∉ (execQuerySteps aq oc).2 ∧
      ConnStep.rolledBack ∉ (execQuerySteps aq oc).2 ∧
      ((execWriteSteps aq oc commitOk).2.count ConnStep.released =
          if aq then 1 else 0) ∧
      ((execWriteSteps aq oc commitOk).2.getLast? =
          if aq then some ConnStep.released else none) ∧
      ((execWriteSteps aq oc commitOk).1 = true ↔
          ConnStep.committed ∈ (execWriteSteps aq oc commitOk).2) ∧
      (ConnStep.rolledBack ∈ (execWriteSteps aq oc commitOk).2 ↔
          (aq = true ∧ (execWriteSteps aq oc commitOk).1 = false)) ∧
      ((execManySteps aq oc commitOk).2.count ConnStep.released =
          if aq then 1 else 0) ∧
      ((execManySteps aq oc commitOk).2.getLast? =
          if aq then some ConnStep.released else none) ∧
      ((execManySteps aq oc commitOk).1 = true ↔
          ConnStep.committed ∈ (execManySteps aq oc commitOk).2) ∧
      (ConnStep.rolledBack ∈ (execManySteps aq oc commitOk).2 ↔
          (aq = true ∧ (execManySteps aq oc commitOk).1 = false)) := by
  decide

/-- C2: run in which one record is processed, the archival step
reports success, and the success-path audit INSERT raises.  The code
lets that exception escape to the outer handler, which replaces the
success outcome with a 500 error body and records a single audit row
with status error and zero counts, contradicting the claim that an
audit-write failure is only logged and never masks the run outcome. -/
theorem lambda_handler_success_audit_failure_masks_outcome :
    (processBatch oracleFailSuccessAudit w0 [qd1]).1 = 1 ∧
    (lambda_handler oracleFailSuccessAudit w0 [qd1] [] true "out.json" 0 5).1 =
      LambdaResult.err (errString Err.dbError) ∧
    ((lambda_handler oracleFailSuccessAudit w0 [qd1] [] true "out.json" 0 5).1).statusCode
      = 500 ∧
    ((lambda_handler oracleFailSuccessAudit w0 [qd1] [] true "out.json" 0 5).2.db.executions.map
      (fun e => (e.status, e.questions_processed, e.output_file)))
      = [("error", 0, "")] := by
  decide

/-- C3 counterexample: the tag x is absent, a concurrent creator
commits x between the lookup and the insert, and the insert raises the
uniqueness violation.  create_or_get surfaces the error directly and
its statement trace shows no second lookup, while the retry variant
prescribed by the spec resolves the id of the raced tag. -/
theorem create_or_get_retry_counterexample :
    (TagsRepository.create_or_get oracleNone (some "x") w0 "x").1 =
      Except.error Err.duplicateKey ∧
    (TagsRepository.create_or_get oracleNone (some "x") w0 "x").2.trace =
      [Stmt.selectTagByName "x", Stmt.insertTag "x"] ∧
    (TagsRepository.create_or_get_retrySpec oracleNone (some "x") w0 "x").1 =
      Except.ok 1 := by
  decide

/-- Helper: List.find? is none exactly when no element satisfies the
predicate, specialised to the Boolean form used by the embedding. -/
theorem find?_none_any_false {α : Type} (p : α → Bool) (l : List α)
    (h : l.find? p = none) : l.any p = false := by
  rw [List.any_eq_false]
  intro x hx
  exact List.find?_eq_none.mp h x hx

/-- C3 amended: create_or_get looks the name up by exact match and
returns the existing id if found, otherwise inserts; when the insert
raises a uniqueness violation because a concurrent creator raced on
the same name, the violation propagates directly to the caller with no
retry of the lookup (the statement trace gains only the one lookup and
the one insert). -/
theorem create_or_get_race_surfaces_error (o : Oracle) (w : World)
    (name : String)
    (hsel : o (.selectTagByName name) = false)
    (hins : o (.insertTag name) = false)
    (habs : w.db.tags.find? (fun t => t.name == name) = none) :
    (TagsRepository.create_or_get o (some name) w name).1 =
      Except.error Err.duplicateKey ∧
    (TagsRepository.create_or_get o (some name) w name).2.trace =
      w.trace ++ [Stmt.selectTagByName name, Stmt.insertTag name] := by
  have hany : w.db.tags.any (fun t => t.name == name) = false :=
    find?_none_any_false _ _ habs
  simp only [TagsRepository.create_or_get, TagsRepository.get_by_name,
    Db.selectTagByName, Db.logStmt, hsel, Bool.false_eq_true, if_false,
    habs, TagsRepository.applyRace, hany, TagsRepository.create,
    Db.insertTag, hins]
  simp [List.any_append, hany, List.append_assoc]

/-- Witness for the amended C3 theorem at the concrete raced world. -/
theorem create_or_get_race_surfaces_error_witness :
    (oracleNone (.selectTagByName "x") = false ∧
      oracleNone (.insertTag "x") = false ∧
      (w0.db.tags.find? (fun t => t.name == "x")) = none) ∧
    ((TagsRepository.create_or_get oracleNone (some "x") w0 "x").1 =
      Except.error Err.duplicateKey ∧
    (TagsRepository.create_or_get oracleNone (some "x") w0 "x").2.trace =
      w0.trace ++ [Stmt.selectTagByName "x", Stmt.insertTag "x"]) :=
  ⟨⟨rfl, rfl, rfl⟩,
    create_or_get_race_surfaces_error oracleNone w0 "x" rfl rfl rfl⟩

/-- C4: an exception while processing one record is caught at record
scope and counted as a failure, and the per-record loop continues: the
loop over a concatenation always equals the loop over the first part
followed by the loop over the second part from the reached state, and
in the concrete 3-record batch whose second record raises during
upsert, records 1 and 3 are still processed, the second record reports
failure, and the final processed count is 2. -/
theorem process_question_partial_failure_isolation :
    (∀ (o : Oracle) (w : World) (ds₁ ds₂ : List QuestionData),
      processBatch o w (ds₁ ++ ds₂) =
        ((processBatch o w ds₁).1 +
          (processBatch o (processBatch o w ds₁).2 ds₂).1,
          (processBatch o (processBatch o w ds₁).2 ds₂).2)) ∧
    (processBatch oracleFailQ2 w0
      [recNoTags "q1", recNoTags "q2", recNoTags "q3"]).1 = 2 ∧
    ((processBatch oracleFailQ2 w0
      [recNoTags "q1", recNoTags "q2", recNoTags "q3"]).2.db.questions.map
        (fun r => r.question_id)) = ["q1", "q3"] ∧
    (process_question oracleFailQ2
      ((processBatch oracleFailQ2 w0 [recNoTags "q1"]).2)
      (recNoTags "q2")).1 = (false, none) := by
  refine ⟨?_, by decide, by decide, by decide⟩
  intro o w ds₁ ds₂
  induction ds₁ generalizing w with
  | nil => simp [processBatch]
  | cons d ds ih => simp [processBatch, ih, Nat.add_assoc]

/-- Helper: membership after the sequential INSERT IGNORE fold is
membership in either the table or the inserted pairs. -/
theorem mem_insertIgnorePairs (ps : List (Nat × Nat)) :
    ∀ (qts : List (Nat × Nat)) (x : Nat × Nat),
      (x ∈ Db.insertIgnorePairs qts ps ↔ x ∈ qts ∨ x ∈ ps) := by
  induction ps with
  | nil => intro qts x; simp [Db.insertIgnorePairs]
  | cons p ps ih =>
    intro qts x
    have hstep : Db.insertIgnorePairs qts (p :: ps) =
        Db.insertIgnorePairs (if qts.contains p then qts else qts ++ [p]) ps := rfl
    rw [hstep]
    by_cases h : qts.contains p = true
    · rw [if_pos h, ih]
      have hp : p ∈ qts := by simpa using h
      constructor
      · rintro (hx | hx)
        · exact Or.inl hx
        · exact Or.inr (List.mem_cons_of_mem _ hx)
      · rintro (hx | hx)
        · exact Or.inl hx
        · rcases List.mem_cons.mp hx with rfl | hx
          · exact Or.inl hp
          · exact Or.inr hx
    · rw [if_neg h, ih]
      simp only [List.mem_append, List.mem_singleton, List.mem_cons]
      tauto


/-- Helper: reconciledTags converges: a pair for the question is in
the result exactly when its tag id is in the desired list. -/
theorem reconciledTags_mem (qts : List (Nat × Nat)) (qid t : Nat)
    (tagIds : List Nat) :
    ((qid, t) ∈ reconciledTags qts qid tagIds ↔ t ∈ tagIds) := by
  simp only [reconciledTags]
  set current := (qts.filter (fun p => p.1 == qid)).map (fun p => p.2) with hcur
  set tags_to_add := tagIds.filter (fun t => !(current.contains t)) with hadd
  set tags_to_remove := current.filter (fun t => !(tagIds.contains t)) with hrem
  have hcur_mem : ∀ x : Nat, (x ∈ current ↔ (qid, x) ∈ qts) := by
    intro x
    rw [hcur]
    simp only [List.mem_map, List.mem_filter, beq_iff_eq]
    constructor
    · rintro ⟨p, ⟨hmem, h1⟩, h2⟩
      exact (show p = (qid, x) from Prod.ext_iff.mpr ⟨h1, h2⟩) ▸ hmem
    · intro h; exact ⟨(qid, x), ⟨h, rfl⟩, rfl⟩
  have hrem_mem : ∀ x : Nat, (x ∈ tags_to_remove ↔ (qid, x) ∈ qts ∧ x ∉ tagIds) := by
    intro x
    rw [hrem]
    simp [List.mem_filter, hcur_mem]
  have hadd_mem : ∀ x : Nat, (x ∈ tags_to_add ↔ x ∈ tagIds ∧ ¬((qid, x) ∈ qts)) := by
    intro x
    rw [hadd]
    simp [List.mem_filter, hcur_mem]
  have hafter : ∀ x : Nat,
      ((qid, x) ∈ (if tags_to_remove.isEmpty then qts
        else qts.filter (fun p => !(p.1 == qid && tags_to_remove.contains p.2)))
        ↔ (qid, x) ∈ qts ∧ x ∉ tags_to_remove) := by
    intro x
    by_cases h : tags_to_remove.isEmpty
    · rw [if_pos h]
      have hnil : tags_to_remove = [] := by simpa [List.isEmpty_iff] using h
      simp [hnil]
    · rw [if_neg h]
      simp [List.mem_filter]
  by_cases ha : tags_to_add.isEmpty
  · rw [if_pos ha, hafter t, hrem_mem t]
    have haddnil : tags_to_add = [] := by simpa [List.isEmpty_iff] using ha
    have hna : ¬(t ∈ tagIds ∧ ¬((qid, t) ∈ qts)) := by
      rw [← hadd_mem t, haddnil]
      exact List.not_mem_nil t
    tauto
  · rw [if_neg ha, mem_insertIgnorePairs, hafter t, hrem_mem t]
    have hmapmem : ((qid, t) ∈ tags_to_add.map (fun x => (qid, x)) ↔
        t ∈ tags_to_add) := by
      simp [List.mem_map]
    rw [hmapmem, hadd_mem t]
    tauto

/-- C1: on a fault-free run, update_question_tags returns True and
converges the association set of the question to exactly the desired
tag-id set, whatever it was before; with an empty desired set all
existing associations for the question are removed. -/
theorem update_question_tags_converges (o : Oracle) (w : World) (qid : Nat)
    (tagIds : List Nat) (hNF : ∀ s, o s = false) :
    (QuestionTagsRepository.update_question_tags o w qid tagIds).1 = true ∧
    ∀ t : Nat, ((qid, t) ∈
      (QuestionTagsRepository.update_question_tags o w qid tagIds).2.db.questionTags
      ↔ t ∈ tagIds) := by
  have h2 : (QuestionTagsRepository.update_question_tags o w qid tagIds).2.db.questionTags
      = reconciledTags w.db.questionTags qid tagIds := by
    simp only [QuestionTagsRepository.update_question_tags,
      QuestionTagsRepository.remove_tags_from_question,
      QuestionTagsRepository.add_tags_to_question,
      Db.selectQuestionTagIds, Db.deleteQuestionTags, Db.insertQuestionTags,
      Db.logStmt, hNF, Bool.false_eq_true, if_false, reconciledTags]
    split_ifs <;> rfl
  have h1 : (QuestionTagsRepository.update_question_tags o w qid tagIds).1 = true := by
    simp only [QuestionTagsRepository.update_question_tags,
      Db.selectQuestionTagIds, Db.logStmt, hNF, Bool.false_eq_true, if_false]
  refine ⟨h1, ?_⟩
  intro t
  rw [h2]
  exact reconciledTags_mem w.db.questionTags qid t tagIds

/-- Witness for C1 at a concrete prior association set: question 1
previously tagged 10 and 11, desired set 11 and 12; afterwards a tag
is associated with question 1 exactly when it is 11 or 12. -/
theorem update_question_tags_converges_witness :
    (∀ s : Stmt, oracleNone s = false) ∧
    ((QuestionTagsRepository.update_question_tags oracleNone
      { db := { questionTags := [(1, 10), (1, 11), (2, 10)] } } 1 [11, 12]).1 = true ∧
    ∀ t : Nat, ((1, t) ∈
      (QuestionTagsRepository.update_question_tags oracleNone
        { db := { questionTags := [(1, 10), (1, 11), (2, 10)] } } 1 [11, 12]).2.db.questionTags
      ↔ t ∈ [11, 12])) :=
  ⟨fun _ => rfl,
    update_question_tags_converges oracleNone
      { db := { questionTags := [(1, 10), (1, 11), (2, 10)] } } 1 [11, 12]
      (fun _ => rfl)⟩

/-- Helper: assigning a different column leaves a column unchanged,
and a type-mismatched assignment changes nothing. -/
theorem getCol_setCol_ne (r : QuestionRow) (cv : Col × Value) (c : Col)
    (h : c ≠ cv.1) : getCol (setCol r cv) c = getCol r c := by
  obtain ⟨c', v⟩ := cv
  cases c' <;> cases v <;> cases c <;> first | rfl | exact absurd rfl h

/-- Helper: a SET clause that never mentions a column leaves it
unchanged. -/
theorem getCol_applyFields_not_mem (fs : List (Col × Value)) (c : Col)
    (h : ∀ cv ∈ fs, cv.1 ≠ c) :
    ∀ r : QuestionRow, getCol (applyFields r fs) c = getCol r c := by
  induction fs with
  | nil => intro r; rfl
  | cons cv fs ih =>
    intro r
    have hstep : applyFields r (cv :: fs) = applyFields (setCol r cv) fs := rfl
    rw [hstep, ih (fun cv' h' => h cv' (List.mem_cons_of_mem _ h'))]
    exact getCol_setCol_ne r cv c
      (fun he => h cv (List.mem_cons_self _ _) he.symm)

/-- Helper: the column list of the built SET clause is the list of
present columns, in field_map order. -/
theorem map_fst_filterMap_colValue (d : QuestionData) (l : List Col) :
    (l.filterMap (fun c => (colValue d c).map (fun v => (c, v)))).map Prod.fst
      = l.filter (fun c => (colValue d c).isSome) := by
  induction l with
  | nil => rfl
  | cons c l ih =>
    cases h : colValue d c <;>
      simp [List.filterMap_cons, h, ih, List.filter_cons]

/-- Helper: every entry of the built SET clause carries the value of
its present column. -/
theorem mem_updFields_colValue (d : QuestionData) (cv : Col × Value)
    (h : cv ∈ updFields d) : colValue d cv.1 = some cv.2 := by
  rcases List.mem_filterMap.mp h with ⟨c, _, hc⟩
  rcases Option.map_eq_some'.mp hc with ⟨v, hv, rfl⟩
  simpa using hv

/-- Helper: assigning a present column sets exactly its record
value. -/
theorem getCol_setCol_colValue (d : QuestionData) (c : Col) (v : Value)
    (h : colValue d c = some v) (r : QuestionRow) :
    getCol (setCol r (c, v)) c = v := by
  cases c <;> (rcases Option.map_eq_some'.mp h with ⟨a, ha, rfl⟩; rfl)

/-- Helper: a SET clause with pairwise distinct columns whose entries
all agree with colValue assigns each mentioned column its record
value. -/
theorem getCol_applyFields_mem (d : QuestionData) :
    ∀ (fs : List (Col × Value)),
      (∀ cv ∈ fs, colValue d cv.1 = some cv.2) →
      ((fs.map Prod.fst).Nodup) →
      ∀ (c : Col) (v : Value), (c, v) ∈ fs →
      ∀ r : QuestionRow, getCol (applyFields r fs) c = v := by
  intro fs
  induction fs with
  | nil => intro _ _ c v hmem; cases hmem
  | cons cv fs ih =>
    intro hwt hnd c v hmem r
    rw [List.map_cons, List.nodup_cons] at hnd
    obtain ⟨hhead, htail⟩ := hnd
    rcases List.mem_cons.mp hmem with heq | hmem'
    · have hcv : cv = (c, v) := heq.symm
      subst hcv
      have hnotin : ∀ cv' ∈ fs, cv'.1 ≠ c := by
        intro cv' h' he
        have hc : c ∈ fs.map Prod.fst := by
          rw [← he]
          exact List.mem_map_of_mem Prod.fst h'
        exact hhead hc
      have hstep : applyFields r ((c, v) :: fs) = applyFields (setCol r (c, v)) fs := rfl
      rw [hstep, getCol_applyFields_not_mem fs c hnotin]
      exact getCol_setCol_colValue d c v
        (hwt (c, v) (List.mem_cons_self _ _)) r
    · exact ih (fun cv' h' => hwt cv' (List.mem_cons_of_mem _ h'))
        htail c v hmem' (setCol r cv)

/-- C5: the UPDATE statement of QuestionsRepository.update is built
only from the columns whose keys are present in the incoming record;
applying it leaves every absent column at its previous value and sets
every present column to the record value; and on a fault-free run the
stored table changes exactly by applying that statement to the matched
row (or not at all when no updatable key is present). -/
theorem update_partial_update_semantics (o : Oracle) (w : World)
    (rowId : Nat) (d : QuestionData)
    (hNF : o (.updateQuestion rowId) = false) :
    (∀ cv ∈ updFields d, colPresent d cv.1 = true) ∧
    (∀ (r : QuestionRow) (c : Col), colPresent d c = false →
      getCol (applyFields r (updFields d)) c = getCol r c) ∧
    (∀ (r : QuestionRow) (c : Col) (v : Value), colValue d c = some v →
      getCol (applyFields r (updFields d)) c = v) ∧
    ((QuestionsRepository.update o w rowId d).2.db.questions =
      if (updFields d).isEmpty then w.db.questions
      else w.db.questions.map
        (fun r => if r.id == rowId then applyFields r (updFields d) else r)) := by
  have hpres : ∀ cv ∈ updFields d, colPresent d cv.1 = true := by
    intro cv h
    have := mem_updFields_colValue d cv h
    simp [colPresent, this]
  have hnd : ((updFields d).map Prod.fst).Nodup := by
    rw [updFields, map_fst_filterMap_colValue]
    exact List.Nodup.filter _ (by decide)
  refine ⟨hpres, ?_, ?_, ?_⟩
  · intro r c habs
    refine getCol_applyFields_not_mem (updFields d) c ?_ r
    intro cv hcv he
    have := hpres cv hcv
    rw [he] at this
    rw [colPresent] at this habs
    rw [habs] at this
    exact Bool.noConfusion this
  · intro r c v hval
    have hmem : (c, v) ∈ updFields d := by
      rw [updFields]
      refine List.mem_filterMap.mpr ⟨c, ?_, ?_⟩
      · cases c <;> simp [colOrder]
      · simp [hval]
    exact getCol_applyFields_mem d (updFields d)
      (fun cv h => mem_updFields_colValue d cv h) hnd c v hmem r
  · by_cases he : (updFields d).isEmpty
    · rw [if_pos he]
      simp [QuestionsRepository.update, he]
    · rw [if_neg he]
      simp [QuestionsRepository.update, he, Db.updateQuestion, hNF, Db.logStmt]

/-- Witness for C5: updating the full stored row with a record
carrying only the external id and a view count of 5. -/
theorem update_partial_update_semantics_witness :
    (oracleNone (.updateQuestion 1) = false) ∧
    ((∀ cv ∈ updFields dViewOnly, colPresent dViewOnly cv.1 = true) ∧
    (∀ (r : QuestionRow) (c : Col), colPresent dViewOnly c = false →
      getCol (applyFields r (updFields dViewOnly)) c = getCol r c) ∧
    (∀ (r : QuestionRow) (c : Col) (v : Value), colValue dViewOnly c = some v →
      getCol (applyFields r (updFields dViewOnly)) c = v) ∧
    ((QuestionsRepository.update oracleNone { db := { questions := [rowFull] } }
        1 dViewOnly).2.db.questions =
      if (updFields dViewOnly).isEmpty then
        ({ db := { questions := [rowFull] } } : World).db.questions
      else ({ db := { questions := [rowFull] } } : World).db.questions.map
        (fun r => if r.id == 1 then applyFields r (updFields dViewOnly) else r))) :=
  ⟨rfl, update_partial_update_semantics oracleNone
    { db := { questions := [rowFull] } } 1 dViewOnly rfl⟩

/-- Helper: a tag lookup only logs a statement. -/
theorem selectTagByName_db (o : Oracle) (w : World) (name : String) :
    (Db.selectTagByName o w name).2.db = w.db := by
  simp only [Db.selectTagByName, Db.logStmt]
  split_ifs <;> rfl

/-- Helper: a question lookup only logs a statement. -/
theorem selectQuestionByQid_db (o : Oracle) (w : World) (qid : String) :
    (Db.selectQuestionByQid o w qid).2.db = w.db := by
  simp only [Db.selectQuestionByQid, Db.logStmt]
  split_ifs <;> rfl

/-- Helper: an association lookup only logs a statement. -/
theorem selectQuestionTagIds_db (o : Oracle) (w : World) (qid : Nat) :
    (Db.selectQuestionTagIds o w qid).2.db = w.db := by
  simp only [Db.selectQuestionTagIds, Db.logStmt]
  split_ifs <;> rfl

/-- Helper: a tag insert touches only the tags table. -/
theorem insertTag_frame (o : Oracle) (w : World) (name : String) :
    (Db.insertTag o w name).2.db.executions = w.db.executions ∧
    (Db.insertTag o w name).2.db.nextExecutionId = w.db.nextExecutionId ∧
    (Db.insertTag o w name).2.db.questionTags = w.db.questionTags ∧
    (Db.insertTag o w name).2.db.questions = w.db.questions := by
  simp only [Db.insertTag, Db.logStmt]
  split_ifs <;> exact ⟨rfl, rfl, rfl, rfl⟩

/-- Helper: the modelled concurrent tag writer touches only the tags
table. -/
theorem applyRace_frame (race : Option String) (w : World) :
    (TagsRepository.applyRace race w).db.executions = w.db.executions ∧
    (TagsRepository.applyRace race w).db.nextExecutionId = w.db.nextExecutionId ∧
    (TagsRepository.applyRace race w).db.questionTags = w.db.questionTags ∧
    (TagsRepository.applyRace race w).db.questions = w.db.questions := by
  cases race with
  | none => exact ⟨rfl, rfl, rfl, rfl⟩
  | some n =>
    simp only [TagsRepository.applyRace]
    split_ifs <;> exact ⟨rfl, rfl, rfl, rfl⟩

/-- Helper: a question insert touches only the questions table. -/
theorem insertQuestion_frame (o : Oracle) (w : World) (r : QuestionRow) :
    (Db.insertQuestion o w r).2.db.executions = w.db.executions ∧
    (Db.insertQuestion o w r).2.db.nextExecutionId = w.db.nextExecutionId ∧
    (Db.insertQuestion o w r).2.db.questionTags = w.db.questionTags := by
  simp only [Db.insertQuestion, Db.logStmt]
  split_ifs <;> exact ⟨rfl, rfl, rfl⟩

/-- Helper: a question update touches only the questions table. -/
theorem updateQuestion_frame (o : Oracle) (w : World) (rowId : Nat)
    (fs : List (Col × Value)) :
    (Db.updateQuestion o w rowId fs).2.db.executions = w.db.executions ∧
    (Db.updateQuestion o w rowId fs).2.db.nextExecutionId = w.db.nextExecutionId ∧
    (Db.updateQuestion o w rowId fs).2.db.questionTags = w.db.questionTags := by
  simp only [Db.updateQuestion, Db.logStmt]
  split_ifs <;> exact ⟨rfl, rfl, rfl⟩

/-- Helper: an association delete never touches the audit table. -/
theorem deleteQuestionTags_execFrame (o : Oracle) (w : World) (qid : Nat)
    (ids : List Nat) :
    (Db.deleteQuestionTags o w qid ids).2.db.executions = w.db.executions ∧
    (Db.deleteQuestionTags o w qid ids).2.db.nextExecutionId = w.db.nextExecutionId := by
  simp only [Db.deleteQuestionTags, Db.logStmt]
  split_ifs <;> exact ⟨rfl, rfl⟩

/-- Helper: an association bulk insert never touches the audit
table. -/
theorem insertQuestionTags_execFrame (o : Oracle) (w : World) (qid : Nat)
    (pairs : List (Nat × Nat)) :
    (Db.insertQuestionTags o w qid pairs).2.db.executions = w.db.executions ∧
    (Db.insertQuestionTags o w qid pairs).2.db.nextExecutionId = w.db.nextExecutionId := by
  simp only [Db.insertQuestionTags, Db.logStmt]
  split_ifs <;> exact ⟨rfl, rfl⟩

/-- Helper: create_or_get touches only the tags table. -/
theorem create_or_get_frame (o : Oracle) (race : Option String) (w : World)
    (name : String) :
    (TagsRepository.create_or_get o race w name).2.db.executions = w.db.executions ∧
    (TagsRepository.create_or_get o race w name).2.db.nextExecutionId = w.db.nextExecutionId ∧
    (TagsRepository.create_or_get o race w name).2.db.questionTags = w.db.questionTags ∧
    (TagsRepository.create_or_get o race w name).2.db.questions = w.db.questions := by
  have hdb : (TagsRepository.get_by_name o w name).2.db = w.db :=
    selectTagByName_db o w name
  rcases hx : TagsRepository.get_by_name o w name with ⟨res, w₁⟩
  rw [hx] at hdb
  simp only at hdb
  cases res with
  | error e =>
    simp only [TagsRepository.create_or_get, hx]
    rw [hdb]
    exact ⟨rfl, rfl, rfl, rfl⟩
  | ok t =>
    cases t with
    | some tag =>
      simp only [TagsRepository.create_or_get, hx]
      rw [hdb]
      exact ⟨rfl, rfl, rfl, rfl⟩
    | none =>
      simp only [TagsRepository.create_or_get, hx, TagsRepository.create]
      obtain ⟨h1, h2, h3, h4⟩ := insertTag_frame o (TagsRepository.applyRace race w₁) name
      obtain ⟨g1, g2, g3, g4⟩ := applyRace_frame race w₁
      rw [h1, h2, h3, h4, g1, g2, g3, g4, hdb]
      exact ⟨rfl, rfl, rfl, rfl⟩

/-- Helper: the tag resolution loop touches only the tags table. -/
theorem resolveTagIds_execFrame (o : Oracle) :
    ∀ (names : List String) (w : World),
    (resolveTagIds o w names).2.db.executions = w.db.executions ∧
    (resolveTagIds o w names).2.db.nextExecutionId = w.db.nextExecutionId := by
  intro names
  induction names with
  | nil => intro w; exact ⟨rfl, rfl⟩
  | cons n ns ih =>
    intro w
    obtain ⟨c1, c2, _, _⟩ := create_or_get_frame o none w n
    rcases hx : TagsRepository.create_or_get o none w n with ⟨res, w₁⟩
    rw [hx] at c1 c2
    simp only at c1 c2
    cases res with
    | error e =>
      simp only [resolveTagIds, hx]
      exact ⟨c1, c2⟩
    | ok tid =>
      obtain ⟨i1, i2⟩ := ih w₁
      rcases hy : resolveTagIds o w₁ ns with ⟨res2, w₂⟩
      rw [hy] at i1 i2
      simp only at i1 i2
      cases res2 with
      | error e =>
        simp only [resolveTagIds, hx, hy]
        exact ⟨i1.trans c1, i2.trans c2⟩
      | ok rest =>
        simp only [resolveTagIds, hx, hy]
        exact ⟨i1.trans c1, i2.trans c2⟩

/-- Helper: QuestionsRepository.update touches only the questions
table. -/
theorem update_frame (o : Oracle) (w : World) (rowId : Nat)
    (d : QuestionData) :
    (QuestionsRepository.update o w rowId d).2.db.executions = w.db.executions ∧
    (QuestionsRepository.update o w rowId d).2.db.nextExecutionId = w.db.nextExecutionId ∧
    (QuestionsRepository.update o w rowId d).2.db.questionTags = w.db.questionTags := by
  rcases hx : Db.updateQuestion o w rowId (updFields d) with ⟨res, w₁⟩
  obtain ⟨u1, u2, u3⟩ := updateQuestion_frame o w rowId (updFields d)
  rw [hx] at u1 u2 u3
  simp only at u1 u2 u3
  simp only [QuestionsRepository.update, hx]
  split_ifs
  · exact ⟨rfl, rfl, rfl⟩
  · cases res <;> exact ⟨u1, u2, u3⟩

/-- Helper: QuestionsRepository.create touches only the questions
table. -/
theorem createQ_frame (o : Oracle) (w : World) (d : QuestionData) :
    (QuestionsRepository.create o w d).2.db.executions = w.db.executions ∧
    (QuestionsRepository.create o w d).2.db.nextExecutionId = w.db.nextExecutionId ∧
    (QuestionsRepository.create o w d).2.db.questionTags = w.db.questionTags := by
  simp only [QuestionsRepository.create]
  cases d.question_id <;> cases d.title <;> cases d.language <;> cases d.url <;>
    first
      | exact ⟨rfl, rfl, rfl⟩
      | exact insertQuestion_frame o w _

/-- Helper: create_or_update touches only the questions table: the
audit table and the association table are untouched on every path. -/
theorem create_or_update_frame (o : Oracle) (w : World) (d0 : QuestionData) :
    (QuestionsRepository.create_or_update o w d0).2.db.executions = w.db.executions ∧
    (QuestionsRepository.create_or_update o w d0).2.db.nextExecutionId = w.db.nextExecutionId ∧
    (QuestionsRepository.create_or_update o w d0).2.db.questionTags = w.db.questionTags := by
  simp only [QuestionsRepository.create_or_update]
  cases hq : (QuestionsRepository.derivedData d0).question_id with
  | none => exact ⟨rfl, rfl, rfl⟩
  | some qid =>
    have hdb : (QuestionsRepository.get_by_question_id o w qid).2.db = w.db :=
      selectQuestionByQid_db o w qid
    rcases hx : QuestionsRepository.get_by_question_id o w qid with ⟨res, w₁⟩
    rw [hx] at hdb
    simp only at hdb
    have e1 : w₁.db.executions = w.db.executions := by rw [hdb]
    have e2 : w₁.db.nextExecutionId = w.db.nextExecutionId := by rw [hdb]
    have e3 : w₁.db.questionTags = w.db.questionTags := by rw [hdb]
    simp only [hx]
    cases res with
    | error e => exact ⟨e1, e2, e3⟩
    | ok t =>
      cases t with
      | none =>
        obtain ⟨c1, c2, c3⟩ := createQ_frame o w₁ (QuestionsRepository.derivedData d0)
        exact ⟨c1.trans e1, c2.trans e2, c3.trans e3⟩
      | some row =>
        obtain ⟨u1, u2, u3⟩ :=
          update_frame o w₁ row.id (QuestionsRepository.derivedData d0)
        exact ⟨u1.trans e1, u2.trans e2, u3.trans e3⟩

/-- Helper: the association bulk add never touches the audit table. -/
theorem add_tags_execFrame (o : Oracle) (w : World) (qid : Nat)
    (ids : List Nat) :
    (QuestionTagsRepository.add_tags_to_question o w qid ids).2.db.executions
      = w.db.executions ∧
    (QuestionTagsRepository.add_tags_to_question o w qid ids).2.db.nextExecutionId
      = w.db.nextExecutionId := by
  rcases hx : Db.insertQuestionTags o w qid (ids.map (fun t => (qid, t))) with ⟨res, w₁⟩
  obtain ⟨f1, f2⟩ := insertQuestionTags_execFrame o w qid (ids.map (fun t => (qid, t)))
  rw [hx] at f1 f2
  simp only at f1 f2
  simp only [QuestionTagsRepository.add_tags_to_question, hx]
  split_ifs
  · exact ⟨rfl, rfl⟩
  · cases res <;> exact ⟨f1, f2⟩

/-- Helper: the association bulk delete never touches the audit
table. -/
theorem remove_tags_execFrame (o : Oracle) (w : World) (qid : Nat)
    (ids : List Nat) :
    (QuestionTagsRepository.remove_tags_from_question o w qid ids).2.db.executions
      = w.db.executions ∧
    (QuestionTagsRepository.remove_tags_from_question o w qid ids).2.db.nextExecutionId
      = w.db.nextExecutionId := by
  rcases hx : Db.deleteQuestionTags o w qid ids with ⟨res, w₁⟩
  obtain ⟨f1, f2⟩ := deleteQuestionTags_execFrame o w qid ids
  rw [hx] at f1 f2
  simp only at f1 f2
  simp only [QuestionTagsRepository.remove_tags_from_question, hx]
  split_ifs
  · exact ⟨rfl, rfl⟩
  · cases res <;> exact ⟨f1, f2⟩

/-- Helper: update_question_tags never touches the audit table. -/
theorem update_question_tags_execFrame (o : Oracle) (w : World) (qid : Nat)
    (ids : List Nat) :
    (QuestionTagsRepository.update_question_tags o w qid ids).2.db.executions
      = w.db.executions ∧
    (QuestionTagsRepository.update_question_tags o w qid ids).2.db.nextExecutionId
      = w.db.nextExecutionId := by
  have hdb := selectQuestionTagIds_db o w qid
  rcases hx : Db.selectQuestionTagIds o w qid with ⟨res, w₁⟩
  rw [hx] at hdb
  simp only at hdb
  have e1 : w₁.db.executions = w.db.executions := by rw [hdb]
  have e2 : w₁.db.nextExecutionId = w.db.nextExecutionId := by rw [hdb]
  simp only [QuestionTagsRepository.update_question_tags, hx]
  cases res with
  | error e => exact ⟨e1, e2⟩
  | ok current =>
    obtain ⟨r1, r2⟩ := remove_tags_execFrame o w₁ qid
      (current.filter (fun t => !(ids.contains t)))
    obtain ⟨a1, a2⟩ := add_tags_execFrame o
      ((QuestionTagsRepository.remove_tags_from_question o w₁ qid
        (current.filter (fun t => !(ids.contains t)))).2) qid
      (ids.filter (fun t => !(current.contains t)))
    obtain ⟨b1, b2⟩ := add_tags_execFrame o w₁ qid
      (ids.filter (fun t => !(current.contains t)))
    dsimp only
    split_ifs <;>
      first
        | exact ⟨e1, e2⟩
        | exact ⟨r1.trans e1, r2.trans e2⟩
        | exact ⟨b1.trans e1, b2.trans e2⟩
        | exact ⟨(a1.trans r1).trans e1, (a2.trans r2).trans e2⟩

/-- Helper: process_question never touches the audit table. -/
theorem process_question_execFrame (o : Oracle) (w : World) (d : QuestionData) :
    (process_question o w d).2.db.executions = w.db.executions ∧
    (process_question o w d).2.db.nextExecutionId = w.db.nextExecutionId := by
  obtain ⟨c1, c2, _⟩ := create_or_update_frame o w d
  rcases hx : QuestionsRepository.create_or_update o w d with ⟨res, w₁⟩
  rw [hx] at c1 c2
  simp only at c1 c2
  simp only [process_question, hx]
  cases res with
  | error e => exact ⟨c1, c2⟩
  | ok qid =>
    dsimp only
    split_ifs with hz
    · exact ⟨c1, c2⟩
    · cases ht : d.tags with
      | none => exact ⟨c1, c2⟩
      | some names =>
        obtain ⟨t1, t2⟩ := resolveTagIds_execFrame o names w₁
        rcases hy : resolveTagIds o w₁ names with ⟨res2, w₂⟩
        rw [hy] at t1 t2
        simp only at t1 t2
        simp only [hy]
        split_ifs with hne
        · exact ⟨c1, c2⟩
        · cases res2 with
          | error e => exact ⟨t1.trans c1, t2.trans c2⟩
          | ok ids =>
            obtain ⟨u1, u2⟩ := update_question_tags_execFrame o w₂ qid ids.dedup
            dsimp only
            split_ifs with hie
            · exact ⟨t1.trans c1, t2.trans c2⟩
            · exact ⟨(u1.trans t1).trans c1, (u2.trans t2).trans c2⟩

/-- Helper: the per-record loop never touches the audit table. -/
theorem processBatch_execFrame (o : Oracle) :
    ∀ (ds : List QuestionData) (w : World),
    (processBatch o w ds).2.db.executions = w.db.executions ∧
    (processBatch o w ds).2.db.nextExecutionId = w.db.nextExecutionId := by
  intro ds
  induction ds with
  | nil => intro w; exact ⟨rfl, rfl⟩
  | cons d ds ih =>
    intro w
    obtain ⟨p1, p2⟩ := process_question_execFrame o w d
    obtain ⟨i1, i2⟩ := ih (process_question o w d).2
    simp only [processBatch]
    exact ⟨i1.trans p1, i2.trans p2⟩

/-- C7: when the audit insert itself is not faulted, every run,
whether the archival step reported success or failure, appends exactly
one new CrawlerExecution row, whose status matches the archival
outcome and whose duration is non-negative. -/
theorem lambda_handler_one_audit_record (o : Oracle) (w : World)
    (qsEn qsZh : List QuestionData) (s3ok : Bool) (outFile : String)
    (startT endT : Nat)
    (h1 : o (.insertExecution "success") = false)
    (h2 : o (.insertExecution "error") = false)
    (ht : startT ≤ endT) :
    (lambda_handler o w qsEn qsZh s3ok outFile startT endT).2.db.executions =
      w.db.executions ++
        [{ id := w.db.nextExecutionId, start_time := startT, end_time := endT,
           questions_processed := (processBatch o w (qsEn ++ qsZh)).1,
           english_questions := qsEn.length, chinese_questions := qsZh.length,
           status := if s3ok then "success" else "error",
           error_message := none,
           duration_ms := (endT : Int) - (startT : Int),
           output_file := outFile }] ∧
    (0 : Int) ≤ (endT : Int) - (startT : Int) := by
  obtain ⟨p1, p2⟩ := processBatch_execFrame o (qsEn ++ qsZh) w
  have ho : o (.insertExecution (if s3ok then "success" else "error")) = false := by
    cases s3ok
    · simpa using h2
    · simpa using h1
  simp only [lambda_handler, CrawlerExecutionsRepository.create, Db.logStmt,
    ho, Bool.false_eq_true, if_false]
  constructor
  · rw [p1, p2]
  · omega

/-- Witness for C7 on a concrete successful run over one record. -/
theorem lambda_handler_one_audit_record_witness :
    (oracleNone (.insertExecution "success") = false ∧
     oracleNone (.insertExecution "error") = false ∧ (0 : Nat) ≤ 5) ∧
    ((lambda_handler oracleNone w0 [qd1] [] true "out.json" 0 5).2.db.executions =
      w0.db.executions ++
        [{ id := w0.db.nextExecutionId, start_time := 0, end_time := 5,
           questions_processed := (processBatch oracleNone w0 ([qd1] ++ [])).1,
           english_questions := [qd1].length,
           chinese_questions := ([] : List QuestionData).length,
           status := if true then "success" else "error",
           error_message := none,
           duration_ms := ((5 : Nat) : Int) - ((0 : Nat) : Int),
           output_file := "out.json" }] ∧
    (0 : Int) ≤ ((5 : Nat) : Int) - ((0 : Nat) : Int)) :=
  ⟨⟨rfl, rfl, by decide⟩,
    lambda_handler_one_audit_record oracleNone w0 [qd1] [] true "out.json" 0 5
      rfl rfl (by decide)⟩

/-- C9: when a question already exists and the UPDATE for its row
raises, QuestionsRepository.update catches the exception and returns
False with the table unchanged, and create_or_update ignores that
result and still reports the existing internal id as a successful
upsert. -/
theorem create_or_update_ignores_update_failure (o : Oracle) (w : World)
    (d : QuestionData) (qid : String) (r : QuestionRow)
    (hqid : d.question_id = some qid)
    (hsel : o (.selectQuestionByQid qid) = false)
    (hfind : w.db.questions.find? (fun q => q.question_id == qid) = some r)
    (hupd : o (.updateQuestion r.id) = true)
    (hfs : (updFields d).isEmpty = false) :
    (QuestionsRepository.create_or_update o w d).1 = Except.ok r.id ∧
    (QuestionsRepository.create_or_update o w d).2.db.questions = w.db.questions ∧
    (QuestionsRepository.update o (Db.logStmt w (.selectQuestionByQid qid))
      r.id (QuestionsRepository.derivedData d)).1 = false := by
  have hder : QuestionsRepository.derivedData d = d := by
    simp [QuestionsRepository.derivedData, hqid]
  have hupdate : ∀ w' : World,
      QuestionsRepository.update o w' r.id d =
        (false, Db.logStmt w' (.updateQuestion r.id)) := by
    intro w'
    simp only [QuestionsRepository.update, hfs, Bool.false_eq_true,
      if_false, Db.updateQuestion, hupd, if_true]
  have hget : QuestionsRepository.get_by_question_id o w qid =
      (Except.ok (some r), Db.logStmt w (.selectQuestionByQid qid)) := by
    simp only [QuestionsRepository.get_by_question_id, Db.selectQuestionByQid,
      hsel, Bool.false_eq_true, if_false, hfind, Db.logStmt]
  refine ⟨?_, ?_, ?_⟩
  · simp only [QuestionsRepository.create_or_update, hder, hqid, hget]
  · simp only [QuestionsRepository.create_or_update, hder, hqid, hget,
      hupdate, Db.logStmt]
  · rw [hder, hupdate]

/-- Witness for C9: the stored full row exists, the UPDATE of row 1 is
faulted, and the upsert still reports id 1 with the table unchanged. -/
theorem create_or_update_ignores_update_failure_witness :
    (dViewOnly.question_id = some "q1" ∧
     oracleFailUpdate (.selectQuestionByQid "q1") = false ∧
     ({ db := { questions := [rowFull] } } : World).db.questions.find?
       (fun q => q.question_id == "q1") = some rowFull ∧
     oracleFailUpdate (.updateQuestion rowFull.id) = true ∧
     (updFields dViewOnly).isEmpty = false) ∧
    ((QuestionsRepository.create_or_update oracleFailUpdate
        { db := { questions := [rowFull] } } dViewOnly).1 = Except.ok rowFull.id ∧
     (QuestionsRepository.create_or_update oracleFailUpdate
        { db := { questions := [rowFull] } } dViewOnly).2.db.questions =
       ({ db := { questions := [rowFull] } } : World).db.questions ∧
     (QuestionsRepository.update oracleFailUpdate
        (Db.logStmt { db := { questions := [rowFull] } } (.selectQuestionByQid "q1"))
        rowFull.id (QuestionsRepository.derivedData dViewOnly)).1 = false) :=
  ⟨⟨rfl, by decide, by decide, by decide, by decide⟩,
    create_or_update_ignores_update_failure oracleFailUpdate
      { db := { questions := [rowFull] } } dViewOnly "q1" rowFull
      rfl (by decide) (by decide) (by decide) (by decide)⟩

/-- C10: when the record has no tags key or an empty tag list,
process_question performs nothing beyond the upsert: the result world
is exactly the upsert world, the stored association table is left
unchanged (not cleared), and the record still counts as successfully
processed. -/
theorem process_question_no_tags_skips_reconciliation (o : Oracle) (w : World)
    (d : QuestionData) (q : Nat) (w₁ : World)
    (hup : QuestionsRepository.create_or_update o w d = (Except.ok q, w₁))
    (hq : q ≠ 0)
    (htags : d.tags = none ∨ d.tags = some []) :
    process_question o w d = ((true, some q), w₁) ∧
    w₁.db.questionTags = w.db.questionTags := by
  have hqt := (create_or_update_frame o w d).2.2
  rw [hup] at hqt
  simp only at hqt
  refine ⟨?_, hqt⟩
  simp only [process_question, hup]
  rcases htags with h | h
  · simp [h, hq]
  · simp [h, hq]

/-- Witness for C10 on a concrete record with no tags key. -/
theorem process_question_no_tags_skips_reconciliation_witness :
    (QuestionsRepository.create_or_update oracleNone w0 (recNoTags "q1") =
      (Except.ok 1,
        (QuestionsRepository.create_or_update oracleNone w0 (recNoTags "q1")).2) ∧
     (1 : Nat) ≠ 0 ∧
     ((recNoTags "q1").tags = none ∨ (recNoTags "q1").tags = some [])) ∧
    (process_question oracleNone w0 (recNoTags "q1") =
      ((true, some 1),
        (QuestionsRepository.create_or_update oracleNone w0 (recNoTags "q1")).2) ∧
     (QuestionsRepository.create_or_update oracleNone w0
        (recNoTags "q1")).2.db.questionTags = w0.db.questionTags) :=
  ⟨⟨by decide, by decide, Or.inl rfl⟩,
    process_question_no_tags_skips_reconciliation oracleNone w0 (recNoTags "q1")
      1 (QuestionsRepository.create_or_update oracleNone w0 (recNoTags "q1")).2
      (by decide) (by decide) (Or.inl rfl)⟩

/-- Helper: one SET assignment never changes the primary key or the
external id. -/
theorem setCol_keeps (r : QuestionRow) (cv : Col × Value) :
    (setCol r cv).question_id = r.question_id ∧ (setCol r cv).id = r.id := by
  obtain ⟨c, v⟩ := cv
  cases c <;> cases v <;> exact ⟨rfl, rfl⟩

/-- Helper: a whole SET clause never changes the primary key or the
external id. -/
theorem applyFields_keeps (fs : List (Col × Value)) :
    ∀ r : QuestionRow,
      (applyFields r fs).question_id = r.question_id ∧
      (applyFields r fs).id = r.id := by
  induction fs with
  | nil => intro r; exact ⟨rfl, rfl⟩
  | cons cv fs ih =>
    intro r
    have h := setCol_keeps r cv
    have h2 := ih (setCol r cv)
    exact ⟨h2.1.trans h.1, h2.2.trans h.2⟩

/-- Helper: an UPDATE statement preserves the list of external ids of
the questions table. -/
theorem updateQuestion_map_qid (o : Oracle) (w : World) (rowId : Nat)
    (fs : List (Col × Value)) :
    ((Db.updateQuestion o w rowId fs).2.db.questions.map (fun r => r.question_id))
      = w.db.questions.map (fun r => r.question_id) := by
  simp only [Db.updateQuestion, Db.logStmt]
  split_ifs
  · rfl
  · dsimp only
    rw [List.map_map]
    apply List.map_congr_left
    intro x _
    by_cases hx : (x.id == rowId) = true <;>
      simp [Function.comp, hx, (applyFields_keeps fs x).1]

/-- Helper: QuestionsRepository.update preserves the list of external
ids of the questions table. -/
theorem update_map_qid (o : Oracle) (w : World) (rowId : Nat)
    (d : QuestionData) :
    ((QuestionsRepository.update o w rowId d).2.db.questions.map
      (fun r => r.question_id))
      = w.db.questions.map (fun r => r.question_id) := by
  rcases hx : Db.updateQuestion o w rowId (updFields d) with ⟨res, w₁⟩
  have h := updateQuestion_map_qid o w rowId (updFields d)
  rw [hx] at h
  simp only at h
  simp only [QuestionsRepository.update, hx]
  split_ifs
  · rfl
  · cases res <;> exact h

/-- Helper: an UPDATE statement preserves primary key and external id
of the row found by external id. -/
theorem updateQuestion_find_qid (o : Oracle) (w : World) (rowId : Nat)
    (fs : List (Col × Value)) (qid : String) :
    (((Db.updateQuestion o w rowId fs).2.db.questions.find?
        (fun r => r.question_id == qid)).map (fun r => (r.id, r.question_id)))
      = ((w.db.questions.find? (fun r => r.question_id == qid)).map
        (fun r => (r.id, r.question_id))) := by
  simp only [Db.updateQuestion, Db.logStmt]
  split_ifs
  · rfl
  · dsimp only
    rw [List.find?_map]
    have hpred : ((fun r : QuestionRow => r.question_id == qid) ∘
        (fun r : QuestionRow => if r.id == rowId then applyFields r fs else r))
        = (fun r : QuestionRow => r.question_id == qid) := by
      funext x
      by_cases hx : (x.id == rowId) = true <;>
        simp [Function.comp, hx, (applyFields_keeps fs x).1]
    rw [hpred]
    cases hf : w.db.questions.find? (fun r => r.question_id == qid) with
    | none => rfl
    | some r =>
      by_cases hr : r.id = rowId
      · simp [hr, (applyFields_keeps fs r).1, (applyFields_keeps fs r).2]
      · simp [hr]

/-- Helper: QuestionsRepository.update preserves primary key and
external id of the row found by external id. -/
theorem update_find_qid (o : Oracle) (w : World) (rowId : Nat)
    (d : QuestionData) (qid : String) :
    (((QuestionsRepository.update o w rowId d).2.db.questions.find?
        (fun r => r.question_id == qid)).map (fun r => (r.id, r.question_id)))
      = ((w.db.questions.find? (fun r => r.question_id == qid)).map
        (fun r => (r.id, r.question_id))) := by
  rcases hx : Db.updateQuestion o w rowId (updFields d) with ⟨res, w₁⟩
  have h := updateQuestion_find_qid o w rowId (updFields d) qid
  rw [hx] at h
  simp only at h
  simp only [QuestionsRepository.update, hx]
  split_ifs
  · rfl
  · cases res <;> exact h

/-- Helper: under a unique constraint on external ids, at most one row
matches a given external id. -/
theorem length_filter_qid_le_one (l : List QuestionRow) (qid : String)
    (h : (l.map (fun r => r.question_id)).Nodup) :
    (l.filter (fun r => r.question_id == qid)).length ≤ 1 := by
  have hsub : ((l.filter (fun r => r.question_id == qid)).map
      (fun r => r.question_id)).Sublist (l.map (fun r => r.question_id)) :=
    (List.filter_sublist l).map _
  have hnd := hsub.nodup h
  have hall : ∀ x ∈ (l.filter (fun r => r.question_id == qid)).map
      (fun r => r.question_id), x = qid := by
    intro x hx
    rcases List.mem_map.mp hx with ⟨r, hr, rfl⟩
    have := List.of_mem_filter hr
    simpa using this
  have hlen : (l.filter (fun r => r.question_id == qid)).length
      = ((l.filter (fun r => r.question_id == qid)).map
        (fun r => r.question_id)).length := (List.length_map _ _).symm
  rw [hlen]
  rcases hml : (l.filter (fun r => r.question_id == qid)).map
      (fun r => r.question_id) with _ | ⟨a, _ | ⟨b, t⟩⟩
  · rw [hml]; simp
  · rw [hml]; simp
  · exfalso
    rw [hml] at hnd hall
    have ha : a = qid := hall a (by simp)
    have hb : b = qid := hall b (by simp)
    rcases List.nodup_cons.mp hnd with ⟨hna, _⟩
    exact hna (by simp [ha, hb])

/-- Helper: equal external-id lists give equal match counts for any
external id. -/
theorem filterlen_congr (l₁ l₂ : List QuestionRow) (qid : String)
    (h : l₁.map (fun r => r.question_id) = l₂.map (fun r => r.question_id)) :
    (l₁.filter (fun r => r.question_id == qid)).length
      = (l₂.filter (fun r => r.question_id == qid)).length := by
  have h1 := List.countP_map (fun s : String => s == qid) (fun r : QuestionRow => r.question_id) l₁
  have h2 := List.countP_map (fun s : String => s == qid) (fun r : QuestionRow => r.question_id) l₂
  rw [← List.countP_eq_length_filter, ← List.countP_eq_length_filter]
  have : ((fun s : String => s == qid) ∘ (fun r : QuestionRow => r.question_id))
      = (fun r : QuestionRow => r.question_id == qid) := rfl
  rw [this] at h1 h2
  rw [← h1, ← h2, h]

/-- Helper: a successful QuestionsRepository.create appends exactly
one row carrying the record external id and the fresh id. -/
theorem create_ok (o : Oracle) (w : World) (d : QuestionData) (i1 : Nat)
    (w₁ : World) (hNF : ∀ s, o s = false)
    (h : QuestionsRepository.create o w d = (Except.ok i1, w₁)) :
    ∃ (qid : String) (row : QuestionRow), d.question_id = some qid ∧
      row.question_id = qid ∧ row.id = i1 ∧ i1 = w.db.nextQuestionId ∧
      w₁.db.questions = w.db.questions ++ [row] := by
  cases hq : d.question_id with
  | none => rw [QuestionsRepository.create, hq] at h; simp at h
  | some qid =>
    cases ht : d.title with
    | none =>
      rw [QuestionsRepository.create, hq, ht] at h
      cases d.language <;> cases d.url <;> simp at h
    | some tv =>
      cases hl : d.language with
      | none =>
        rw [QuestionsRepository.create, hq, ht, hl] at h
        cases d.url <;> simp at h
      | some lv =>
        cases hu : d.url with
        | none => rw [QuestionsRepository.create, hq, ht, hl, hu] at h; simp at h
        | some uv =>
          rw [QuestionsRepository.create, hq, ht, hl, hu] at h
          simp only [Db.insertQuestion, Db.logStmt, hNF, Bool.false_eq_true,
            if_false] at h
          by_cases hdup : (w.db.questions.any (fun q => q.question_id == qid)) = true
          · rw [if_pos hdup] at h
            simp at h
          · rw [if_neg hdup] at h
            rw [Prod.mk.injEq] at h
            obtain ⟨h5, h6⟩ := h
            have hi : i1 = w.db.nextQuestionId := by
              injection h5 with hh
              exact hh.symm
            let row : QuestionRow :=
              { id := w.db.nextQuestionId, question_id := qid,
                title := tv, description := d.description, language := lv,
                url := uv, view_count := d.view_count.getD 0,
                vote_count := d.vote_count.getD 0,
                answers_count := d.answers_count.getD 0,
                has_accepted_answer := d.has_accepted_answer.getD false,
                posted_at := d.posted_at }
            refine ⟨qid, row, rfl, rfl, hi.symm, hi, ?_⟩
            rw [← h6]
  

/-- Helper: when a row with the derived external id exists, a
fault-free create_or_update takes the update path: it returns the
existing internal id, preserves the external-id list of the table, and
the row found by that external id keeps its id and external id. -/
theorem create_or_update_existing (o : Oracle) (w : World) (d : QuestionData)
    (qid : String) (r : QuestionRow)
    (hNF : ∀ s, o s = false)
    (hq : (QuestionsRepository.derivedData d).question_id = some qid)
    (hfind : w.db.questions.find? (fun x => x.question_id == qid) = some r) :
    (QuestionsRepository.create_or_update o w d).1 = Except.ok r.id ∧
    ((QuestionsRepository.create_or_update o w d).2.db.questions.map
      (fun x => x.question_id))
      = w.db.questions.map (fun x => x.question_id) ∧
    (((QuestionsRepository.create_or_update o w d).2.db.questions.find?
        (fun x => x.question_id == qid)).map (fun x => (x.id, x.question_id)))
      = some (r.id, qid) := by
  have hget : QuestionsRepository.get_by_question_id o w qid =
      (Except.ok (some r), Db.logStmt w (.selectQuestionByQid qid)) := by
    simp only [QuestionsRepository.get_by_question_id, Db.selectQuestionByQid,
      hNF, Bool.false_eq_true, if_false, hfind, Db.logStmt]
  have hrqid : r.question_id = qid := by
    have := List.find?_some hfind
    simpa using this
  simp only [QuestionsRepository.create_or_update, hq, hget]
  refine ⟨trivial, ?_, ?_⟩
  · exact update_map_qid o (Db.logStmt w (.selectQuestionByQid qid)) r.id
      (QuestionsRepository.derivedData d)
  · rw [update_find_qid]
    show ((w.db.questions.find? (fun x => x.question_id == qid)).map
      (fun x => (x.id, x.question_id))) = some (r.id, qid)
    rw [hfind]
    simp [hrqid]

/-- C6: calling create_or_update twice with the same record never
creates a duplicate row: under the unique constraint invariant and a
fault-free run, if the first call returned an internal id, the second
call returns the same id, leaves the list of stored external ids
unchanged, and exactly one row carries the derived external id. -/
theorem create_or_update_idempotent (o : Oracle) (w : World) (d : QuestionData)
    (i1 : Nat) (w₁ : World)
    (hNF : ∀ s, o s = false)
    (hWF : (w.db.questions.map (fun r => r.question_id)).Nodup)
    (h1 : QuestionsRepository.create_or_update o w d = (Except.ok i1, w₁)) :
    (QuestionsRepository.create_or_update o w₁ d).1 = Except.ok i1 ∧
    ((QuestionsRepository.create_or_update o w₁ d).2.db.questions.map
      (fun r => r.question_id)) = w₁.db.questions.map (fun r => r.question_id) ∧
    ∃ qid, (QuestionsRepository.derivedData d).question_id = some qid ∧
      ((QuestionsRepository.create_or_update o w₁ d).2.db.questions.filter
        (fun r => r.question_id == qid)).length = 1 := by
  cases hq : (QuestionsRepository.derivedData d).question_id with
  | none =>
    exfalso
    simp only [QuestionsRepository.create_or_update, hq] at h1
    simp at h1
  | some qid =>
    have key : ∃ r₁ : QuestionRow,
        w₁.db.questions.find? (fun x => x.question_id == qid) = some r₁ ∧
        r₁.id = i1 ∧
        (w₁.db.questions.filter (fun x => x.question_id == qid)).length = 1 := by
      cases hfind : w.db.questions.find? (fun x => x.question_id == qid) with
      | some r =>
        obtain ⟨e1, e2, e3⟩ := create_or_update_existing o w d qid r hNF hq hfind
        rw [h1] at e1 e2 e3
        simp only at e1 e2 e3
        have hri : r.id = i1 := by
          injection e1 with hh
          exact hh.symm
        cases hf1 : w₁.db.questions.find? (fun x => x.question_id == qid) with
        | none => rw [hf1] at e3; simp at e3
        | some r₁ =>
          rw [hf1] at e3
          rw [Option.map_some', Option.some.injEq, Prod.mk.injEq] at e3
          refine ⟨r₁, rfl, e3.1.trans hri, ?_⟩
          rw [filterlen_congr _ _ qid e2]
          have hmem := List.mem_of_find?_eq_some hfind
          have hpr := List.find?_some hfind
          have hinf : r ∈ w.db.questions.filter (fun x => x.question_id == qid) :=
            List.mem_filter.mpr ⟨hmem, hpr⟩
          have hpos := List.length_pos_of_mem hinf
          have hle := length_filter_qid_le_one w.db.questions qid hWF
          omega
      | none =>
        have hcou : QuestionsRepository.create_or_update o w d =
            QuestionsRepository.create o (Db.logStmt w (.selectQuestionByQid qid))
              (QuestionsRepository.derivedData d) := by
          simp only [QuestionsRepository.create_or_update, hq,
            QuestionsRepository.get_by_question_id, Db.selectQuestionByQid,
            hNF, Bool.false_eq_true, if_false, hfind, Db.logStmt]
        rw [hcou] at h1
        obtain ⟨qid', row, hq', hrowqid, hrowid, hinext, happend⟩ :=
          create_ok o (Db.logStmt w (.selectQuestionByQid qid))
            (QuestionsRepository.derivedData d) i1 w₁ hNF h1
        have hlog : (Db.logStmt w (Stmt.selectQuestionByQid qid)).db = w.db := rfl
        rw [hlog] at happend
        have hqq : qid' = qid := by
          rw [hq] at hq'
          injection hq' with hh
          exact hh.symm
        rw [hqq] at hrowqid
        have hf1 : w₁.db.questions.find? (fun x => x.question_id == qid) = some row := by
          rw [happend, List.find?_append, hfind]
          simp [hrowqid]
        refine ⟨row, hf1, hrowid, ?_⟩
        rw [happend, List.filter_append]
        have hfe : w.db.questions.filter (fun x => x.question_id == qid) = [] := by
          rw [List.filter_eq_nil_iff]
          intro a ha
          exact List.find?_eq_none.mp hfind a ha
        rw [hfe]
        simp [hrowqid]
    obtain ⟨r₁, hf1, hr1, hcount⟩ := key
    obtain ⟨e1, e2, _⟩ := create_or_update_existing o w₁ d qid r₁ hNF hq hf1
    refine ⟨by rw [e1, hr1], e2, qid, rfl, ?_⟩
    rw [filterlen_congr _ _ qid e2]
    exact hcount

/-- Witness for C6: inserting the full record into the empty store and
upserting it again. -/
theorem create_or_update_idempotent_witness :
    ((∀ s : Stmt, oracleNone s = false) ∧
     (w0.db.questions.map (fun r => r.question_id)).Nodup ∧
     QuestionsRepository.create_or_update oracleNone w0 qd1 =
       (Except.ok 1, (QuestionsRepository.create_or_update oracleNone w0 qd1).2)) ∧
    ((QuestionsRepository.create_or_update oracleNone
        (QuestionsRepository.create_or_update oracleNone w0 qd1).2 qd1).1 =
      Except.ok 1 ∧
    ((QuestionsRepository.create_or_update oracleNone
        (QuestionsRepository.create_or_update oracleNone w0 qd1).2 qd1).2.db.questions.map
      (fun r => r.question_id)) =
      (QuestionsRepository.create_or_update oracleNone w0 qd1).2.db.questions.map
        (fun r => r.question_id) ∧
    ∃ qid, (QuestionsRepository.derivedData qd1).question_id = some qid ∧
      ((QuestionsRepository.create_or_update oracleNone
          (QuestionsRepository.create_or_update oracleNone w0 qd1).2 qd1).2.db.questions.filter
        (fun r => r.question_id == qid)).length = 1) :=
  ⟨⟨fun _ => rfl, by decide, by decide⟩,
    create_or_update_idempotent oracleNone w0 qd1 1
      (QuestionsRepository.create_or_update oracleNone w0 qd1).2
      (fun _ => rfl) (by decide) (by decide)⟩
